import Mathlib

set_option maxRecDepth 100000

/-
Verification development for the PJ Cloud AI chat service (src/main.py).

Text is modelled as Lean String (a wrapper around List Char); the helper
functions below translate the Python string operations used by the source.
The two module-level dicts SESSIONS and SESSION_META are modelled as
association lists inside a ServerState record; Python dict assignment,
lookup and pop become dInsert, dGet and filtering.  Wall-clock readings
(time.time()) within one request are modelled by a single Int parameter
now; the timezone formatting done by datetime.now(ZoneInfo(tz)) is an
oracle function from timezone names to Option String (none models the
swallowed exception).  The completion API and the web search are oracles
recorded in an Oracles record; every message list handed to the completion
API is recorded in the apiCalls field of the step output.
-/

/-- Python str.strip() whitespace test (the characters relevant here). -/
def isSpaceChar (c : Char) : Bool :=
  decide (c = ' ') || decide (c = '\t') || decide (c = '\n') || decide (c = '\r')

/-- Characters of the Python strip set " ?!.," used by the place extractor. -/
def punctSpaceChar (c : Char) : Bool :=
  decide (c = ' ') || decide (c = '?') || decide (c = '!') || decide (c = '.') || decide (c = ',')

/-- Drop the longest run of characters satisfying p from the front. -/
def dropWhileL (p : Char → Bool) : List Char → List Char
  | [] => []
  | c :: rest => if p c then dropWhileL p rest else c :: rest

/-- Strip characters satisfying p from both ends, as Python str.strip does. -/
def stripL (p : Char → Bool) (l : List Char) : List Char :=
  (dropWhileL p ((dropWhileL p l).reverse)).reverse

/-- Python str.strip() on a String. -/
def pyStrip (s : String) : String := ⟨stripL isSpaceChar s.data⟩

/-- Python str.lower() restricted to the ASCII range used by the source. -/
def lowerL (l : List Char) : List Char := l.map Char.toLower

/-- Does the character list start with the given pattern. -/
def startsWithL : List Char → List Char → Bool
  | [], _ => true
  | _ :: _, [] => false
  | p :: ps, c :: cs => if p = c then startsWithL ps cs else false

/-- Suffix after the first occurrence of pat, as in Python t.split(p, 1)[1];
none when pat does not occur (Python membership test p in t fails). -/
def afterFirstL (pat : List Char) : List Char → Option (List Char)
  | [] => if startsWithL pat [] then some [] else none
  | c :: cs =>
    if startsWithL pat (c :: cs) then some (List.drop pat.length (c :: cs))
    else afterFirstL pat cs

/-- Is there an occurrence of the character in the list. -/
def hasCharL (c : Char) : List Char → Bool
  | [] => false
  | x :: rest => if x = c then true else hasCharL c rest

/-- Python s.split(",", 1)[0]: the portion before the first comma. -/
def beforeComma : List Char → List Char
  | [] => []
  | x :: rest => if x = ',' then [] else x :: beforeComma rest

/-- Python str.split() word splitting on whitespace runs, accumulator form. -/
def wordsAux (acc : List Char) : List Char → List (List Char)
  | [] => if acc = [] then [] else [acc.reverse]
  | c :: rest =>
    if isSpaceChar c then
      (if acc = [] then wordsAux [] rest else acc.reverse :: wordsAux [] rest)
    else wordsAux (c :: acc) rest

/-- Python str.split() word splitting on whitespace runs. -/
def wordsL (l : List Char) : List (List Char) := wordsAux [] l

/-- Python " ".join on word lists. -/
def joinSpaceL : List (List Char) → List Char
  | [] => []
  | [w] => w
  | w :: w2 :: rest => w ++ (' ' :: joinSpaceL (w2 :: rest))

/-- Python sep.join on a list of strings. -/
def joinSep (sep : String) : List String → String
  | [] => ""
  | [s] => s
  | s :: s2 :: rest => s ++ sep ++ joinSep sep (s2 :: rest)

/-- Lexicographic comparison on character lists by code point, matching the
ordering Python sorted uses on these ASCII city names. -/
def lexLeL : List Char → List Char → Bool
  | [], _ => true
  | _ :: _, [] => false
  | a :: al, b :: bl => if a = b then lexLeL al bl else decide (a < b)

/-- Insertion step of the string sort. -/
def insertStr (x : String) : List String → List String
  | [] => [x]
  | y :: rest => if lexLeL x.data y.data then x :: y :: rest else y :: insertStr x rest

/-- Python sorted on a list of strings. -/
def sortStrings : List String → List String
  | [] => []
  | x :: rest => insertStr x (sortStrings rest)

/-- Python str.title(): uppercase a letter that follows a non-letter,
lowercase the other letters; the Bool records whether the previous
character was a letter. -/
def titleL : Bool → List Char → List Char
  | _, [] => []
  | prevAlpha, c :: rest =>
    (if c.isAlpha then (if prevAlpha then c.toLower else c.toUpper) else c)
      :: titleL c.isAlpha rest

/-- Python str.title() on a String. -/
def pyTitle (s : String) : String := ⟨titleL false s.data⟩

/-- Association list lookup, modelling Python dict lookup d.get(k) / d[k]. -/
def dGet {α : Type} (k : String) : List (String × α) → Option α
  | [] => none
  | (k2, v) :: rest => if k2 = k then some v else dGet k rest

/-- Association list update, modelling Python dict assignment d[k] = v
(value replaced in place when the key exists, appended otherwise). -/
def dInsert {α : Type} (k : String) (v : α) : List (String × α) → List (String × α)
  | [] => [(k, v)]
  | (k2, v2) :: rest => if k2 = k then (k, v) :: rest else (k2, v2) :: dInsert k v rest

/-- Boolean key membership in a key list. -/
def keyIn (x : String) : List String → Bool
  | [] => false
  | y :: rest => if y = x then true else keyIn x rest

/- ----- constants of src/main.py ----- -/

/-- PJ_SYSTEM_PROMPT from src/main.py lines 18 to 28, after the .strip(). -/
def PJ_SYSTEM_PROMPT : String :=
  "You are PJ, a helpful personal companion AI.\nStyle: warm, concise, and practical.\n\nRules:\n- If you don’t know something, say so and ask a short follow-up question.\n- Do NOT claim you can browse the internet unless the server provides search results.\n- You may share publicly available, official resources (government sites, public registries, official associations).\n- Do NOT help with illegal sourcing or purchasing controlled substances.\n- If a request is about medical or legal resources, provide safe guidance and official links instead of refusing completely."

/-- CITY_TZ table from src/main.py lines 30 to 47, in source order. -/
def CITY_TZ : List (String × String) :=
  [ ("windhoek", "Africa/Windhoek")
  , ("london", "Europe/London")
  , ("berlin", "Europe/Berlin")
  , ("paris", "Europe/Paris")
  , ("rome", "Europe/Rome")
  , ("madrid", "Europe/Madrid")
  , ("lisbon", "Europe/Lisbon")
  , ("new york", "America/New_York")
  , ("los angeles", "America/Los_Angeles")
  , ("chicago", "America/Chicago")
  , ("toronto", "America/Toronto")
  , ("dubai", "Asia/Dubai")
  , ("delhi", "Asia/Kolkata")
  , ("tokyo", "Asia/Tokyo")
  , ("singapore", "Asia/Singapore")
  , ("sydney", "Australia/Sydney") ]

/-- MAX_TURNS from src/main.py line 53. -/
def MAX_TURNS : Nat := 20

/-- CLEANUP_INTERVAL_SECONDS from src/main.py line 56. -/
def CLEANUP_INTERVAL_SECONDS : Int := 60

/-- Alias table inside extract_place_for_time_question, lines 99 to 104. -/
def aliasTable : List (String × String) :=
  [ ("nyc", "new york")
  , ("new york city", "new york")
  , ("la", "los angeles")
  , ("l.a.", "los angeles") ]

/-- Trigger keyword list of should_search_web, src/main.py lines 120 to 126. -/
def searchTriggers : List String :=
  [ "search", "find", "look up", "lookup", "where can i"
  , "official website", "official link", "directory", "providers"
  , "clinic", "contact", "phone number", "address", "near me"
  , "job", "jobs", "hiring", "vacancy", "vacancies", "stellenangebot"
  , "stellenangebote", "reinigungskraft", "gebäudereinigung", "bewerben" ]

/- ----- extract_place_for_time_question, src/main.py lines 90 to 115 ----- -/

/-- First trigger pattern, "current time in". -/
def pat1 : List Char := ("current time in").data

/-- Second trigger pattern, "time in". -/
def pat2 : List Char := ("time in").data

/-- Third trigger pattern, "what time is it in". -/
def pat3 : List Char := ("what time is it in").data

/-- The lowercased and stripped text t of line 91. -/
def canonText (s : String) : List Char := stripL isSpaceChar (lowerL s.data)

/-- The 3-word, 2-word, 1-word probe of lines 109 to 113: when parts has at
least n words, join the first n with single spaces and return them if that
candidate is a key of CITY_TZ. -/
def tryCity (parts : List (List Char)) (n : Nat) : Option String :=
  if n ≤ parts.length then
    (if (dGet (⟨joinSpaceL (parts.take n)⟩ : String) CITY_TZ).isSome then
       some ⟨joinSpaceL (parts.take n)⟩
     else none)
  else none

/-- The descending loop over n = 3, 2, 1 of line 109. -/
def firstCityMatch (parts : List (List Char)) : Option String :=
  match tryCity parts 3 with
  | some c => some c
  | none =>
    match tryCity parts 2 with
    | some c => some c
    | none => tryCity parts 1

/-- Lines 95 to 114: the processing of the text after a matched trigger
phrase: strip whitespace, strip the set " ?!.,", keep the part before the
first comma (re-stripped), consult the alias table, then probe 3-, 2- and
1-word candidates against CITY_TZ, falling back to the remaining string. -/
def processAfterPat (rest : List Char) : String :=
  let p0 := stripL punctSpaceChar (stripL isSpaceChar rest)
  let p1 := if hasCharL ',' p0 then stripL isSpaceChar (beforeComma p0) else p0
  match dGet (⟨p1⟩ : String) aliasTable with
  | some a => a
  | none =>
    match firstCityMatch (wordsL p1) with
    | some c => c
    | none => ⟨p1⟩

/-- extract_place_for_time_question from src/main.py lines 90 to 115.  The
loop over patterns becomes a chain of matches in the same order; the
Python membership test p in t together with t.split(p, 1)[1] becomes
afterFirstL. -/
def extract_place_for_time_question (text : String) : Option String :=
  match afterFirstL pat1 (canonText text) with
  | some rest => some (processAfterPat rest)
  | none =>
    match afterFirstL pat2 (canonText text) with
    | some rest => some (processAfterPat rest)
    | none =>
      match afterFirstL pat3 (canonText text) with
      | some rest => some (processAfterPat rest)
      | none => none

/-- current_time_for from src/main.py lines 78 to 87.  The clock oracle maps
a timezone name to the formatted local time; none models the swallowed
exception of the try block. -/
def current_time_for (clock : String → Option String) (place : String) : Option String :=
  match dGet (⟨lowerL (stripL isSpaceChar place.data)⟩ : String) CITY_TZ with
  | none => none
  | some tz => clock tz

/-- should_search_web from src/main.py lines 118 to 127. -/
def should_search_web (user_msg : String) : Bool :=
  searchTriggers.any (fun tg => (afterFirstL tg.data (lowerL user_msg.data)).isSome)

/- ----- server state and the chat orchestrator, src/main.py lines 49 to 254 ----- -/

/-- One conversation message, the dict of role and content used by the
source. -/
structure Message where
  role : String
  content : String
deriving DecidableEq

/-- Fixed first entry of every session, created at src/main.py line 215. -/
def sysMsg : Message := ⟨"system", PJ_SYSTEM_PROMPT⟩

/-- The module-level mutable state of src/main.py: SESSIONS (line 50),
SESSION_META (line 51) and the throttle timestamp of the cleanup
(line 57). -/
structure ServerState where
  sessions : List (String × List Message)
  meta : List (String × Int)
  lastCleanup : Int
deriving DecidableEq

/-- Outcome of a request handler: a JSON reply carrying the reply text, or
an HTTPException with status code and detail. -/
inductive ChatResult where
  | ok : String → ChatResult
  | httpError : Nat → String → ChatResult
deriving DecidableEq

/-- Body of POST /chat, src/main.py lines 60 to 62. -/
structure ChatRequest where
  session_id : String
  message : String

/-- Environment configuration consumed by the handler: OPENAI_API_KEY
(line 207) and PJ_SESSION_TTL_SECONDS (line 55). -/
structure Config where
  apiKey : Option String
  ttl : Int

/-- External collaborators of one request: the timezone clock
(datetime.now of lines 84 to 85, none models the swallowed exception),
the web search outcome (ddg_search, error models a raised exception),
and the completion API outcome (lines 242 to 247; the Option models a
possibly missing message content, taken to "" by the source). -/
structure Oracles where
  clock : String → Option String
  search : Except String (List (String × String))
  completion : Except String (Option String)

/-- Result of one /chat request: HTTP outcome, resulting server state, and
the message lists handed to the completion API during the request. -/
structure StepOut where
  result : ChatResult
  state : ServerState
  apiCalls : List (List Message)
deriving DecidableEq

/-- Line 72: the ids whose meta timestamp satisfies now - last_seen > ttl. -/
def deadKeys (ttl : Int) (now : Int) (meta : List (String × Int)) : List String :=
  (meta.filter (fun p => decide (ttl < now - p.2))).map Prod.fst

/-- _cleanup_sessions_if_needed from src/main.py lines 65 to 75: when the
throttle interval has elapsed, record the sweep time and pop from both
maps every id in deadKeys. -/
def cleanup_sessions_if_needed (ttl : Int) (now : Int) (st : ServerState) : ServerState :=
  if now - st.lastCleanup < CLEANUP_INTERVAL_SECONDS then st
  else
    { sessions := st.sessions.filter (fun p => !(keyIn p.1 (deadKeys ttl now st.meta)))
    , meta := st.meta.filter (fun p => !(keyIn p.1 (deadKeys ttl now st.meta)))
    , lastCleanup := now }

/-- Lines 214 to 215: create the session with the single system message
when the id is absent. -/
def ensureSession (sid : String) (sessions : List (String × List Message)) :
    List (String × List Message) :=
  if (dGet sid sessions).isSome then sessions else dInsert sid [sysMsg] sessions

/-- Lines 232 to 234: keep the first entry and the most recent
MAX_TURNS * 2 entries of the rest. -/
def takeLast {α : Type} (n : Nat) (l : List α) : List α := l.drop (l.length - n)

/-- trim of lines 232 to 234 applied to a nonempty history list. -/
def trimHistory (history : List Message) : List Message :=
  match history with
  | [] => []
  | h :: rest => h :: takeLast (MAX_TURNS * 2) rest

/-- Line 193 and line 252: SESSION_META[session_id] = time.time(). -/
def touchMeta (sid : String) (now : Int) (st : ServerState) : ServerState :=
  { st with meta := dInsert sid now st.meta }

/-- Lines 218 to 227: the best-effort web context.  It is some formatted
block only when should_search_web fires, the search succeeds and returns a
nonempty result list; a raised search exception is swallowed to none. -/
def webContextOf (orc : Oracles) (msg : String) : Option String :=
  if should_search_web msg then
    match orc.search with
    | Except.ok results =>
      if results.isEmpty then none
      else some ("Web search results (use these links; do not invent links):\n"
        ++ joinSep "\n" (results.map (fun r => "- " ++ r.1 ++ " — " ++ r.2)))
    | Except.error _ => none
  else none

/-- Line 239: the optional trailing system entry holding the web context. -/
def ctxMsgList (w : Option String) : List Message :=
  match w with
  | some c => [⟨"system", c⟩]
  | none => []

/-- Line 204: the known-city help list, sorted keys of CITY_TZ, first 12,
comma-joined, with the trailing ellipsis. -/
def knownCities : String :=
  joinSep ", " (List.take 12 (sortStrings (CITY_TZ.map Prod.fst))) ++ " ..."

/-- Reply of line 196 for an empty message. -/
def saySomethingReply : String := "Say something and I’m here 🙂"

/-- Lines 211 to 254, after the API key check: ensure the session exists,
compute the optional web context, append the user message, trim and
persist, build the outgoing request list, invoke the completion API, and
on success persist the assistant reply and refresh the meta timestamp. -/
def chatWithKey (orc : Oracles) (now : Int) (st : ServerState) (sid msg : String) : StepOut :=
  let sessions1 := ensureSession sid st.sessions
  let history := (dGet sid sessions1).getD []
  let webc := webContextOf orc msg
  let trimmed := trimHistory (history ++ [⟨"user", msg⟩])
  let sessions2 := dInsert sid trimmed sessions1
  let outgoing := trimmed ++ ctxMsgList webc
  match orc.completion with
  | Except.error e =>
    ⟨ChatResult.httpError 500 ("OpenAI request failed: " ++ e)
    , { st with sessions := sessions2 }, [outgoing]⟩
  | Except.ok content =>
    ⟨ChatResult.ok (content.getD "")
    , { st with
        sessions := dInsert sid (trimmed ++ [⟨"assistant", content.getD ""⟩]) sessions2,
        meta := dInsert sid now st.meta }
    , [outgoing]⟩

/-- Lines 207 to 209: the API key guard of the NORMAL path. -/
def chatNormal (cfg : Config) (orc : Oracles) (now : Int) (st : ServerState)
    (sid msg : String) : StepOut :=
  match cfg.apiKey with
  | none => ⟨ChatResult.httpError 500 "OPENAI_API_KEY missing in env vars", st, []⟩
  | some _ => chatWithKey orc now st sid msg

/-- Lines 201 to 205: the direct world-clock answer for a nonempty place. -/
def chatTime (orc : Oracles) (st : ServerState) (place : String) : StepOut :=
  match current_time_for orc.clock place with
  | some t =>
    ⟨ChatResult.ok ("The current time in " ++ pyTitle place ++ " is: " ++ t), st, []⟩
  | none =>
    ⟨ChatResult.ok ("I don’t know the timezone for \x27" ++ place
      ++ "\x27. Try: " ++ knownCities), st, []⟩

/-- Lines 199 to 254 for a nonempty message: the Python truthiness test
if place covers both a missing extraction and the empty string. -/
def chatNonEmpty (cfg : Config) (orc : Oracles) (now : Int) (st : ServerState)
    (sid msg : String) : StepOut :=
  match extract_place_for_time_question msg with
  | some place =>
    if place = "" then chatNormal cfg orc now st sid msg
    else chatTime orc st place
  | none => chatNormal cfg orc now st sid msg

/-- Lines 193 to 196: refresh the meta timestamp, then answer an empty
message with the fixed prompt. -/
def chatWithSid (cfg : Config) (orc : Oracles) (now : Int) (st : ServerState)
    (sid msg : String) : StepOut :=
  let st1 := touchMeta sid now st
  if msg = "" then ⟨ChatResult.ok saySomethingReply, st1, []⟩
  else chatNonEmpty cfg orc now st1 sid msg

/-- The POST /chat handler, src/main.py lines 184 to 254: opportunistic
cleanup, strip both fields, reject a blank session id with a 400, then
continue. -/
def chat (cfg : Config) (orc : Oracles) (now : Int) (st0 : ServerState)
    (req : ChatRequest) : StepOut :=
  let st := cleanup_sessions_if_needed cfg.ttl now st0
  let msg := pyStrip req.message
  let sid := pyStrip req.session_id
  if sid = "" then ⟨ChatResult.httpError 400 "session_id is required", st, []⟩
  else chatWithSid cfg orc now st sid msg

/- ----- concrete fixtures used by witnesses and counterexamples ----- -/

/-- Empty server state with the throttle timestamp at 0. -/
def emptyState : ServerState := ⟨[], [], 0⟩

/-- A fixed clock oracle. -/
def testClock : String → Option String := fun _ => some "2025-01-01 12:00:00 UTC"

/-- Oracles with a failing search and a succeeding completion call. -/
def orcOk : Oracles := ⟨testClock, Except.error "net down", Except.ok (some "hi there")⟩

/-- Oracles with a failing search and a failing completion call. -/
def orcFail : Oracles := ⟨testClock, Except.error "net down", Except.error "boom"⟩

/-- Configuration with an API key present and the default TTL. -/
def cfgKey : Config := ⟨some "k", 21600⟩

/-- Configuration with the API key absent and the default TTL. -/
def cfgNoKey : Config := ⟨none, 21600⟩

/-- A session holding the system message plus 40 non-system messages, at
the documented cap, with a fresh meta entry. -/
def fullState : ServerState :=
  ⟨[("s1", sysMsg :: List.replicate 40 ⟨"user", "x"⟩)], [("s1", 0)], 0⟩

example : extract_place_for_time_question "current time in Tokyo" = some "tokyo" := by decide
example : extract_place_for_time_question "time in new york" = some "new york" := by decide
example : extract_place_for_time_question "what time is it in Berlin, Germany" = some "berlin" := by decide
example : extract_place_for_time_question "hello" = none := by decide
example : extract_place_for_time_question "time in" = some "" := by decide
example : extract_place_for_time_question "what time is it in?" = some "" := by decide
example : should_search_web "find me a clinic near me" = true := by decide
example : should_search_web "hello there" = false := by decide

/- ----- views used by theorem statements ----- -/

/-- The trimmed history persisted by lines 214 to 235 for a given starting
sessions map: the stored (or freshly created) history with the user
message appended, trimmed. -/
def trimmedFor (sessions : List (String × List Message)) (sid msg : String) : List Message :=
  trimHistory (((dGet sid (ensureSession sid sessions)).getD []) ++ [⟨"user", msg⟩])

/- ----- association list lemmas ----- -/

theorem dGet_dInsert_self {α : Type} (k : String) (v : α) (m : List (String × α)) :
    dGet k (dInsert k v m) = some v := by
  induction m with
  | nil => simp [dInsert, dGet]
  | cons hd tl ih =>
    obtain ⟨k2, v2⟩ := hd
    by_cases h : k2 = k
    · subst h; simp [dInsert, dGet]
    · simp [dInsert, dGet, h, ih]

theorem dGet_dInsert_ne {α : Type} (k k2 : String) (v : α) (m : List (String × α))
    (h : k2 ≠ k) : dGet k2 (dInsert k v m) = dGet k2 m := by
  induction m with
  | nil =>
    have h2 : k ≠ k2 := Ne.symm h
    simp [dInsert, dGet, h2]
  | cons hd tl ih =>
    obtain ⟨k3, v3⟩ := hd
    by_cases h3 : k3 = k
    · subst h3
      have h2 : k3 ≠ k2 := Ne.symm h
      simp [dInsert, dGet, h2]
    · by_cases h4 : k3 = k2
      · subst h4; simp [dInsert, dGet, h3]
      · simp [dInsert, dGet, h3, h4, ih]

theorem mem_dInsert {α : Type} {p : String × α} {k : String} {v : α} :
    ∀ {m : List (String × α)}, p ∈ dInsert k v m → p = (k, v) ∨ p ∈ m := by
  intro m
  induction m with
  | nil => intro h; simpa [dInsert] using h
  | cons hd tl ih =>
    obtain ⟨k2, v2⟩ := hd
    intro h
    by_cases hk : k2 = k
    · subst hk
      rw [show dInsert k2 v ((k2, v2) :: tl) = (k2, v) :: tl by simp [dInsert]] at h
      rcases List.mem_cons.mp h with h | h
      · exact Or.inl h
      · exact Or.inr (List.mem_cons_of_mem _ h)
    · rw [show dInsert k v ((k2, v2) :: tl) = (k2, v2) :: dInsert k v tl by
        simp [dInsert, hk]] at h
      rcases List.mem_cons.mp h with h | h
      · exact Or.inr (h ▸ List.mem_cons_self _ _)
      · rcases ih h with h2 | h2
        · exact Or.inl h2
        · exact Or.inr (List.mem_cons_of_mem _ h2)

theorem dGet_mem {α : Type} {k : String} {v : α} :
    ∀ {m : List (String × α)}, dGet k m = some v → (k, v) ∈ m := by
  intro m
  induction m with
  | nil => intro h; simp [dGet] at h
  | cons hd tl ih =>
    obtain ⟨k2, v2⟩ := hd
    intro h
    by_cases hk : k2 = k
    · subst hk
      have hv : v2 = v := by simpa [dGet] using h
      subst hv
      exact List.mem_cons_self _ _
    · rw [show dGet k ((k2, v2) :: tl) = dGet k tl by simp [dGet, hk]] at h
      exact List.mem_cons_of_mem _ (ih h)

theorem dGet_none_filter {α : Type} (k : String) (f : String × α → Bool)
    {m : List (String × α)} (h : dGet k m = none) : dGet k (m.filter f) = none := by
  induction m with
  | nil => simp [dGet]
  | cons hd tl ih =>
    obtain ⟨k2, v2⟩ := hd
    by_cases hk : k2 = k
    · subst hk; simp [dGet] at h
    · simp only [dGet, if_neg hk] at h
      rw [List.filter_cons]
      split
      · simp only [dGet, if_neg hk]
        exact ih h
      · exact ih h

theorem dGet_filter_keyPred {α : Type} (f : String → Bool) (k : String)
    (m : List (String × α)) :
    dGet k (m.filter (fun p => f p.1)) = if f k then dGet k m else none := by
  induction m with
  | nil => simp [dGet]
  | cons hd tl ih =>
    obtain ⟨k2, v2⟩ := hd
    rw [List.filter_cons]
    by_cases hk : k2 = k
    · subst hk
      by_cases hf : f k2
      · simp [dGet, hf, ih]
      · simp [dGet, hf, ih]
    · by_cases hf : f k2
      · simp [dGet, hk, hf, ih]
      · simp [dGet, hk, hf, ih]

theorem not_mem_keys_of_dGet_none {α : Type} {k : String} :
    ∀ {m : List (String × α)}, dGet k m = none → ¬ k ∈ m.map Prod.fst := by
  intro m
  induction m with
  | nil => intro _ h; simp at h
  | cons hd tl ih =>
    obtain ⟨k2, v2⟩ := hd
    intro h hmem
    by_cases hk : k2 = k
    · subst hk; simp [dGet] at h
    · simp only [dGet, if_neg hk] at h
      simp only [List.map_cons, List.mem_cons] at hmem
      rcases hmem with hmem | hmem
      · exact hk hmem.symm
      · exact ih h hmem

theorem keyIn_filter_false {α : Type} (g : String × α → Bool) (k : String)
    {m : List (String × α)} (h : ¬ k ∈ m.map Prod.fst) :
    keyIn k ((m.filter g).map Prod.fst) = false := by
  induction m with
  | nil => simp [keyIn]
  | cons hd tl ih =>
    obtain ⟨k2, v2⟩ := hd
    simp only [List.map_cons, List.mem_cons] at h
    push_neg at h
    rw [List.filter_cons]
    split
    · simp only [List.map_cons, keyIn]
      rw [if_neg (fun hh => h.1 hh.symm)]
      exact ih h.2
    · exact ih h.2

theorem keyIn_dead {α : Type} (g : String × α → Bool) (k : String) (ls : α) :
    ∀ {m : List (String × α)}, (m.map Prod.fst).Nodup → dGet k m = some ls →
      keyIn k ((m.filter g).map Prod.fst) = g (k, ls) := by
  intro m
  induction m with
  | nil => intro _ h; simp [dGet] at h
  | cons hd tl ih =>
    obtain ⟨k2, v2⟩ := hd
    intro hnd hget
    simp only [List.map_cons, List.nodup_cons] at hnd
    by_cases hk : k2 = k
    · subst hk
      have hv : v2 = ls := by simpa [dGet] using hget
      subst hv
      rw [List.filter_cons]
      by_cases hg : g (k2, v2) = true
      · rw [if_pos hg]
        simp [keyIn, hg]
      · rw [if_neg hg]
        rw [keyIn_filter_false g k2 hnd.1]
        have hg2 : g (k2, v2) = false := by simpa using hg
        rw [hg2]
    · have hget2 : dGet k tl = some ls := by simpa [dGet, hk] using hget
      rw [List.filter_cons]
      by_cases hg : g (k2, v2) = true
      · rw [if_pos hg]
        simp only [List.map_cons, keyIn]
        rw [if_neg hk]
        exact ih hnd.2 hget2
      · rw [if_neg hg]
        exact ih hnd.2 hget2

/- ----- list lemmas about the trim ----- -/

theorem takeLast_length_le {α : Type} (n : Nat) (l : List α) :
    (takeLast n l).length ≤ n := by
  rw [takeLast, List.length_drop]
  omega

theorem takeLast_suffix {α : Type} (n : Nat) (l : List α) : takeLast n l <:+ l :=
  List.drop_suffix _ _

theorem trimHistory_append_getLast (l : List Message) (u : Message) :
    (trimHistory (l ++ [u])).getLast? = some u := by
  cases l with
  | nil => rfl
  | cons x xs =>
    have h1 : (xs ++ [u]).length - MAX_TURNS * 2 ≤ xs.length := by
      simp [MAX_TURNS]
    have h2 : takeLast (MAX_TURNS * 2) (xs ++ [u])
        = xs.drop ((xs ++ [u]).length - MAX_TURNS * 2) ++ [u] := by
      rw [takeLast, List.drop_append_eq_append_drop, Nat.sub_eq_zero_of_le h1,
        List.drop_zero]
    rw [show trimHistory ((x :: xs) ++ [u]) = x :: takeLast (MAX_TURNS * 2) (xs ++ [u])
      from rfl]
    rw [h2, ← List.cons_append]
    exact List.getLast?_concat _

theorem trimHistory_head (m : Message) (rest : List Message) :
    trimHistory (m :: rest) = m :: takeLast (MAX_TURNS * 2) rest := rfl

theorem trimHistory_length (m : Message) (rest : List Message) :
    (trimHistory (m :: rest)).length ≤ MAX_TURNS * 2 + 1 := by
  rw [trimHistory_head]
  have := takeLast_length_le (MAX_TURNS * 2) rest
  simp only [List.length_cons]
  omega

/- ----- control flow characterizations of the chat handler ----- -/

theorem chat_blank (cfg : Config) (orc : Oracles) (now : Int) (st0 : ServerState)
    (req : ChatRequest) (h : pyStrip req.session_id = "") :
    chat cfg orc now st0 req =
      ⟨ChatResult.httpError 400 "session_id is required",
       cleanup_sessions_if_needed cfg.ttl now st0, []⟩ := by
  simp [chat, h]

theorem chat_nonblank (cfg : Config) (orc : Oracles) (now : Int) (st0 : ServerState)
    (req : ChatRequest) (h : pyStrip req.session_id ≠ "") :
    chat cfg orc now st0 req =
      chatWithSid cfg orc now (cleanup_sessions_if_needed cfg.ttl now st0)
        (pyStrip req.session_id) (pyStrip req.message) := by
  simp [chat, h]

theorem chatWithSid_empty (cfg : Config) (orc : Oracles) (now : Int)
    (st : ServerState) (sid msg : String) (h : msg = "") :
    chatWithSid cfg orc now st sid msg =
      ⟨ChatResult.ok saySomethingReply, touchMeta sid now st, []⟩ := by
  simp [chatWithSid, h]

theorem chatWithSid_nonempty (cfg : Config) (orc : Oracles) (now : Int)
    (st : ServerState) (sid msg : String) (h : msg ≠ "") :
    chatWithSid cfg orc now st sid msg =
      chatNonEmpty cfg orc now (touchMeta sid now st) sid msg := by
  simp [chatWithSid, h]

theorem chatNonEmpty_time (cfg : Config) (orc : Oracles) (now : Int)
    (st : ServerState) (sid msg place : String)
    (h : extract_place_for_time_question msg = some place) (hp : place ≠ "") :
    chatNonEmpty cfg orc now st sid msg = chatTime orc st place := by
  simp [chatNonEmpty, h, hp]

theorem chatNonEmpty_normal (cfg : Config) (orc : Oracles) (now : Int)
    (st : ServerState) (sid msg : String)
    (h : extract_place_for_time_question msg = none
      ∨ extract_place_for_time_question msg = some "") :
    chatNonEmpty cfg orc now st sid msg = chatNormal cfg orc now st sid msg := by
  rcases h with h | h <;> simp [chatNonEmpty, h]

theorem chatNormal_noKey (cfg : Config) (orc : Oracles) (now : Int)
    (st : ServerState) (sid msg : String) (h : cfg.apiKey = none) :
    chatNormal cfg orc now st sid msg =
      ⟨ChatResult.httpError 500 "OPENAI_API_KEY missing in env vars", st, []⟩ := by
  simp [chatNormal, h]

theorem chatNormal_key (cfg : Config) (orc : Oracles) (now : Int)
    (st : ServerState) (sid msg : String) (k : String) (h : cfg.apiKey = some k) :
    chatNormal cfg orc now st sid msg = chatWithKey orc now st sid msg := by
  simp [chatNormal, h]

theorem chatWithKey_error (orc : Oracles) (now : Int) (st : ServerState)
    (sid msg : String) (e : String) (hc : orc.completion = Except.error e) :
    chatWithKey orc now st sid msg =
      ⟨ChatResult.httpError 500 ("OpenAI request failed: " ++ e),
       { st with sessions :=
           (dInsert sid (trimmedFor st.sessions sid msg) (ensureSession sid st.sessions)) },
       [trimmedFor st.sessions sid msg ++ ctxMsgList (webContextOf orc msg)]⟩ := by
  simp [chatWithKey, hc, trimmedFor]

theorem chatWithKey_ok (orc : Oracles) (now : Int) (st : ServerState)
    (sid msg : String) (c : Option String) (hc : orc.completion = Except.ok c) :
    chatWithKey orc now st sid msg =
      ⟨ChatResult.ok (c.getD ""),
       { st with
         sessions := dInsert sid
           (trimmedFor st.sessions sid msg ++ [⟨"assistant", c.getD ""⟩])
           (dInsert sid (trimmedFor st.sessions sid msg) (ensureSession sid st.sessions)),
         meta := dInsert sid now st.meta },
       [trimmedFor st.sessions sid msg ++ ctxMsgList (webContextOf orc msg)]⟩ := by
  simp [chatWithKey, hc, trimmedFor]

/- ----- preservation of per-session predicates through the handler ----- -/

/-- Every session list stored in the registry satisfies P. -/
def SessPred (P : List Message → Prop) (st : ServerState) : Prop :=
  ∀ p ∈ st.sessions, P p.2

theorem sessPred_cleanup (P : List Message → Prop) (ttl now : Int) (st : ServerState)
    (h : SessPred P st) : SessPred P (cleanup_sessions_if_needed ttl now st) := by
  unfold cleanup_sessions_if_needed
  split
  · exact h
  · intro p hp
    exact h p (List.mem_of_mem_filter hp)

theorem sessPred_ensure (P : List Message → Prop) (hcreate : P [sysMsg]) (sid : String)
    (sessions : List (String × List Message)) (h : ∀ p ∈ sessions, P p.2) :
    ∀ p ∈ ensureSession sid sessions, P p.2 := by
  intro p hp
  unfold ensureSession at hp
  split at hp
  · exact h p hp
  · rcases mem_dInsert hp with heq | hp2
    · rw [heq]; exact hcreate
    · exact h p hp2

theorem dGet_ensure_isSome (sid : String) (sessions : List (String × List Message)) :
    ∃ l, dGet sid (ensureSession sid sessions) = some l := by
  unfold ensureSession
  by_cases h : (dGet sid sessions).isSome
  · rw [if_pos h]
    exact Option.isSome_iff_exists.mp h
  · rw [if_neg h]
    exact ⟨[sysMsg], dGet_dInsert_self _ _ _⟩

theorem sessPred_chatWithKey (P : List Message → Prop)
    (hcreate : P [sysMsg])
    (htrim : ∀ (l : List Message) (u : Message), P l → P (trimHistory (l ++ [u])))
    (hassist : ∀ (l : List Message) (u b : Message), P l → P (trimHistory (l ++ [u]) ++ [b]))
    (orc : Oracles) (now : Int) (st : ServerState) (sid msg : String)
    (h : SessPred P st) : SessPred P (chatWithKey orc now st sid msg).state := by
  have hens : ∀ p ∈ ensureSession sid st.sessions, P p.2 :=
    sessPred_ensure P hcreate sid st.sessions h
  obtain ⟨l, hl⟩ := dGet_ensure_isSome sid st.sessions
  have hPl : P l := hens (sid, l) (dGet_mem hl)
  have hhist : (dGet sid (ensureSession sid st.sessions)).getD [] = l := by
    rw [hl]; rfl
  cases hc : orc.completion with
  | error e =>
    rw [chatWithKey_error orc now st sid msg e hc]
    intro p hp
    rcases mem_dInsert hp with heq | hp2
    · rw [heq]
      show P (trimmedFor st.sessions sid msg)
      rw [trimmedFor, hhist]
      exact htrim l _ hPl
    · exact hens p hp2
  | ok c =>
    rw [chatWithKey_ok orc now st sid msg c hc]
    intro p hp
    rcases mem_dInsert hp with heq | hp2
    · rw [heq]
      show P (trimmedFor st.sessions sid msg ++ [⟨"assistant", c.getD ""⟩])
      rw [trimmedFor, hhist]
      exact hassist l _ _ hPl
    · rcases mem_dInsert hp2 with heq2 | hp3
      · rw [heq2]
        show P (trimmedFor st.sessions sid msg)
        rw [trimmedFor, hhist]
        exact htrim l _ hPl
      · exact hens p hp3

theorem sessPred_chatNormal (P : List Message → Prop)
    (hcreate : P [sysMsg])
    (htrim : ∀ (l : List Message) (u : Message), P l → P (trimHistory (l ++ [u])))
    (hassist : ∀ (l : List Message) (u b : Message), P l → P (trimHistory (l ++ [u]) ++ [b]))
    (cfg : Config) (orc : Oracles) (now : Int) (st : ServerState) (sid msg : String)
    (h : SessPred P st) : SessPred P (chatNormal cfg orc now st sid msg).state := by
  cases hk : cfg.apiKey with
  | none => rw [chatNormal_noKey _ _ _ _ _ _ hk]; exact h
  | some k =>
    rw [chatNormal_key _ _ _ _ _ _ k hk]
    exact sessPred_chatWithKey P hcreate htrim hassist orc now st sid msg h

theorem sessPred_chatTime (P : List Message → Prop) (orc : Oracles) (st : ServerState)
    (place : String) (h : SessPred P st) : SessPred P (chatTime orc st place).state := by
  cases hct : current_time_for orc.clock place with
  | none => simp only [chatTime, hct]; exact h
  | some t => simp only [chatTime, hct]; exact h

theorem sessPred_chat (P : List Message → Prop)
    (hcreate : P [sysMsg])
    (htrim : ∀ (l : List Message) (u : Message), P l → P (trimHistory (l ++ [u])))
    (hassist : ∀ (l : List Message) (u b : Message), P l → P (trimHistory (l ++ [u]) ++ [b]))
    (cfg : Config) (orc : Oracles) (now : Int) (st0 : ServerState) (req : ChatRequest)
    (h : SessPred P st0) : SessPred P (chat cfg orc now st0 req).state := by
  have h1 : SessPred P (cleanup_sessions_if_needed cfg.ttl now st0) :=
    sessPred_cleanup P cfg.ttl now st0 h
  by_cases hsid : pyStrip req.session_id = ""
  · rw [chat_blank cfg orc now st0 req hsid]
    exact h1
  · rw [chat_nonblank cfg orc now st0 req hsid]
    have h2 : SessPred P
        (touchMeta (pyStrip req.session_id) now (cleanup_sessions_if_needed cfg.ttl now st0)) :=
      fun p hp => h1 p hp
    by_cases hmsg : pyStrip req.message = ""
    · rw [chatWithSid_empty _ _ _ _ _ _ hmsg]
      exact h2
    · rw [chatWithSid_nonempty _ _ _ _ _ _ hmsg]
      cases hpl : extract_place_for_time_question (pyStrip req.message) with
      | none =>
        rw [chatNonEmpty_normal _ _ _ _ _ _ (Or.inl hpl)]
        exact sessPred_chatNormal P hcreate htrim hassist cfg orc now _ _ _ h2
      | some place =>
        by_cases hp : place = ""
        · subst hp
          rw [chatNonEmpty_normal _ _ _ _ _ _ (Or.inr hpl)]
          exact sessPred_chatNormal P hcreate htrim hassist cfg orc now _ _ _ h2
        · rw [chatNonEmpty_time _ _ _ _ _ _ place hpl hp]
          exact sessPred_chatTime P orc _ place h2

/- ----- claim C1 ----- -/

theorem headSys_trim (l : List Message) (u : Message) (h : l.head? = some sysMsg) :
    (trimHistory (l ++ [u])).head? = some sysMsg := by
  cases l with
  | nil => simp at h
  | cons a tl =>
    have ha : a = sysMsg := by simpa using h
    subst ha
    rfl

theorem headSys_assist (l : List Message) (u b : Message) (h : l.head? = some sysMsg) :
    ((trimHistory (l ++ [u])) ++ [b]).head? = some sysMsg := by
  have h2 := headSys_trim l u h
  cases htl : trimHistory (l ++ [u]) with
  | nil => rw [htl] at h2; simp at h2
  | cons a tl =>
    rw [htl] at h2
    have ha : a = sysMsg := by simpa using h2
    subst ha
    rfl

/-- C1: for every session present in the registry, after the opportunistic
eviction sweep and after any complete /chat request (which performs the
lazy creation, the user append, the trim and the assistant append), the
first stored message is the fixed system message carrying
PJ_SYSTEM_PROMPT; no operation removes or replaces it. -/
theorem claim_C1 :
    (∀ (ttl now : Int) (st : ServerState),
       SessPred (fun l => l.head? = some sysMsg) st →
       SessPred (fun l => l.head? = some sysMsg) (cleanup_sessions_if_needed ttl now st))
    ∧ (∀ (cfg : Config) (orc : Oracles) (now : Int) (st : ServerState) (req : ChatRequest),
       SessPred (fun l => l.head? = some sysMsg) st →
       SessPred (fun l => l.head? = some sysMsg) (chat cfg orc now st req).state) := by
  constructor
  · intro ttl now st h
    exact sessPred_cleanup _ ttl now st h
  · intro cfg orc now st req h
    exact sessPred_chat (fun l => l.head? = some sysMsg) rfl headSys_trim headSys_assist
      cfg orc now st req h

/-- C1 witness: the invariant holds on the empty registry and is carried
through a concrete normal-path request. -/
theorem claim_C1_witness :
    SessPred (fun l => l.head? = some sysMsg) emptyState
    ∧ SessPred (fun l => l.head? = some sysMsg)
        (chat cfgKey orcOk 0 emptyState ⟨"s1", "hello"⟩).state := by
  constructor
  · intro p hp
    simp [emptyState] at hp
  · exact claim_C1.2 cfgKey orcOk 0 emptyState ⟨"s1", "hello"⟩ (fun p hp => by
      simp [emptyState] at hp)

/- ----- claim C2 ----- -/

theorem trim_append_len (l : List Message) (u : Message) :
    (trimHistory (l ++ [u])).length ≤ MAX_TURNS * 2 + 1 := by
  cases l with
  | nil => exact trimHistory_length u []
  | cons a tl => exact trimHistory_length a (tl ++ [u])

theorem lenInv_trim (l : List Message) (u : Message)
    (_h : l.length ≤ MAX_TURNS * 2 + 2) :
    (trimHistory (l ++ [u])).length ≤ MAX_TURNS * 2 + 2 := by
  have := trim_append_len l u
  omega

theorem lenInv_assist (l : List Message) (u b : Message)
    (_h : l.length ≤ MAX_TURNS * 2 + 2) :
    ((trimHistory (l ++ [u])) ++ [b]).length ≤ MAX_TURNS * 2 + 2 := by
  have := trim_append_len l u
  simp only [List.length_append, List.length_cons, List.length_nil]
  omega

/-- C2 amended: immediately after the trim the stored non-system portion
has at most MAX_TURNS * 2 entries, the trim keeps the first entry and a
most-recent suffix of the rest, and across whole /chat requests every
stored session stays within MAX_TURNS * 2 + 1 non-system messages (the
assistant append of line 251 lands after the trim, so the bound
MAX_TURNS * 2 is exceeded by exactly one between requests). -/
theorem claim_C2 :
    (∀ (cfg : Config) (orc : Oracles) (now : Int) (st : ServerState) (req : ChatRequest),
       SessPred (fun l => l.length ≤ MAX_TURNS * 2 + 2) st →
       SessPred (fun l => l.length ≤ MAX_TURNS * 2 + 2) (chat cfg orc now st req).state)
    ∧ (∀ (m : Message) (rest : List Message),
       (trimHistory (m :: rest)).length - 1 ≤ MAX_TURNS * 2
       ∧ trimHistory (m :: rest) = m :: takeLast (MAX_TURNS * 2) rest
       ∧ takeLast (MAX_TURNS * 2) rest <:+ rest) := by
  constructor
  · intro cfg orc now st req h
    exact sessPred_chat (fun l => l.length ≤ MAX_TURNS * 2 + 2) (by simp [MAX_TURNS])
      lenInv_trim lenInv_assist cfg orc now st req h
  · intro m rest
    refine ⟨?_, trimHistory_head m rest, takeLast_suffix _ _⟩
    have := trimHistory_length m rest
    omega

/-- C2 counterexample: starting from a registry session already holding
MAX_TURNS * 2 non-system messages, one successful /chat request leaves it
with MAX_TURNS * 2 + 1 non-system messages, so the claimed bound of
MAX_TURNS * 2 after every operation fails. -/
theorem claim_C2_counterexample :
    ¬ (((dGet "s1" (chat cfgKey orcOk 0 fullState ⟨"s1", "hello"⟩).state.sessions).getD
        []).length - 1 ≤ MAX_TURNS * 2) := by
  decide

/-- C2 witness: the amended invariant instantiated on the empty registry,
a concrete request, and a concrete trim. -/
theorem claim_C2_witness :
    SessPred (fun l => l.length ≤ MAX_TURNS * 2 + 2)
      (chat cfgKey orcOk 0 emptyState ⟨"s1", "hello"⟩).state
    ∧ (trimHistory [sysMsg]).length - 1 ≤ MAX_TURNS * 2 := by
  constructor
  · exact claim_C2.1 cfgKey orcOk 0 emptyState ⟨"s1", "hello"⟩ (fun p hp => by
      simp [emptyState] at hp)
  · exact (claim_C2.2 sysMsg []).1

/- ----- cleanup characterizations ----- -/

theorem cleanup_skip (ttl now : Int) (st : ServerState)
    (h : now - st.lastCleanup < CLEANUP_INTERVAL_SECONDS) :
    cleanup_sessions_if_needed ttl now st = st := by
  rw [cleanup_sessions_if_needed, if_pos h]

theorem cleanup_run (ttl now : Int) (st : ServerState)
    (h : ¬ now - st.lastCleanup < CLEANUP_INTERVAL_SECONDS) :
    cleanup_sessions_if_needed ttl now st =
      { sessions := st.sessions.filter (fun p => !(keyIn p.1 (deadKeys ttl now st.meta)))
      , meta := st.meta.filter (fun p => !(keyIn p.1 (deadKeys ttl now st.meta)))
      , lastCleanup := now } := by
  rw [cleanup_sessions_if_needed, if_neg h]

theorem dGet_cleanup_sessions (ttl now : Int) (st : ServerState) (k : String) :
    dGet k (cleanup_sessions_if_needed ttl now st).sessions = dGet k st.sessions
    ∨ dGet k (cleanup_sessions_if_needed ttl now st).sessions = none := by
  by_cases h : now - st.lastCleanup < CLEANUP_INTERVAL_SECONDS
  · rw [cleanup_skip ttl now st h]
    exact Or.inl rfl
  · have hs : (cleanup_sessions_if_needed ttl now st).sessions
        = st.sessions.filter (fun p => !(keyIn p.1 (deadKeys ttl now st.meta))) := by
      rw [cleanup_run ttl now st h]
    rw [hs, dGet_filter_keyPred (fun s => !(keyIn s (deadKeys ttl now st.meta))) k st.sessions]
    split
    · exact Or.inl rfl
    · exact Or.inr rfl

theorem dGet_cleanup_meta (ttl now : Int) (st : ServerState) (k : String) :
    dGet k (cleanup_sessions_if_needed ttl now st).meta = dGet k st.meta
    ∨ dGet k (cleanup_sessions_if_needed ttl now st).meta = none := by
  by_cases h : now - st.lastCleanup < CLEANUP_INTERVAL_SECONDS
  · rw [cleanup_skip ttl now st h]
    exact Or.inl rfl
  · have hs : (cleanup_sessions_if_needed ttl now st).meta
        = st.meta.filter (fun p => !(keyIn p.1 (deadKeys ttl now st.meta))) := by
      rw [cleanup_run ttl now st h]
    rw [hs, dGet_filter_keyPred (fun s => !(keyIn s (deadKeys ttl now st.meta))) k st.meta]
    split
    · exact Or.inl rfl
    · exact Or.inr rfl

/- ----- claim C7 ----- -/

/-- C7: a /chat request whose session id is blank after stripping fails
with the 400 client error before any other processing, for every message
including the empty one; apart from the opportunistic eviction sweep the
state is untouched, and in particular no registry entry is created or
updated (any surviving lookup returns its prior value). -/
theorem claim_C7 (cfg : Config) (orc : Oracles) (now : Int) (st0 : ServerState)
    (req : ChatRequest) (h : pyStrip req.session_id = "") :
    (chat cfg orc now st0 req).result = ChatResult.httpError 400 "session_id is required"
    ∧ (chat cfg orc now st0 req).apiCalls = []
    ∧ (chat cfg orc now st0 req).state = cleanup_sessions_if_needed cfg.ttl now st0
    ∧ (∀ (k : String) (v : List Message),
        dGet k (chat cfg orc now st0 req).state.sessions = some v →
        dGet k st0.sessions = some v)
    ∧ (∀ (k : String) (v : Int),
        dGet k (chat cfg orc now st0 req).state.meta = some v →
        dGet k st0.meta = some v) := by
  rw [chat_blank cfg orc now st0 req h]
  refine ⟨rfl, rfl, rfl, ?_, ?_⟩
  · intro k v hv
    rcases dGet_cleanup_sessions cfg.ttl now st0 k with h2 | h2
    · rw [h2] at hv
      exact hv
    · rw [h2] at hv
      cases hv
  · intro k v hv
    rcases dGet_cleanup_meta cfg.ttl now st0 k with h2 | h2
    · rw [h2] at hv
      exact hv
    · rw [h2] at hv
      cases hv

/-- C7 witness: the theorem applied to a concrete blank-id request with a
nonempty message. -/
theorem claim_C7_witness :
    (chat cfgKey orcOk 0 emptyState ⟨"  ", "hello"⟩).result
      = ChatResult.httpError 400 "session_id is required"
    ∧ (chat cfgKey orcOk 0 emptyState ⟨"  ", "hello"⟩).apiCalls = [] := by
  have h := claim_C7 cfgKey orcOk 0 emptyState ⟨"  ", "hello"⟩ (by decide)
  exact ⟨h.1, h.2.1⟩

/- ----- claim C3 ----- -/

/-- C3 counterexample: on a request with an empty message and a fresh
session id, the code performs no completion call, yet the last-seen meta
entry for that id is created, contradicting the claimed absence of any
mutation of the last-seen metadata. -/
theorem claim_C3_counterexample :
    (chat cfgKey orcOk 0 emptyState ⟨"s1", ""⟩).apiCalls = []
    ∧ dGet "s1" emptyState.meta = none
    ∧ dGet "s1" (chat cfgKey orcOk 0 emptyState ⟨"s1", ""⟩).state.meta = some 0 := by
  decide

/-- C3 amended: for a nonempty session id, a request answered by the
empty-message prompt or by the time short-circuit (resolved or not)
performs no completion-API invocation, returns an ok reply, and leaves
the session message log untouched (beyond the opportunistic sweep); the
last-seen metadata for that id, however, is refreshed to the current
time by line 193 before those branches return. -/
theorem claim_C3 (cfg : Config) (orc : Oracles) (now : Int) (st0 : ServerState)
    (req : ChatRequest)
    (hsid : pyStrip req.session_id ≠ "")
    (hshort : pyStrip req.message = ""
      ∨ ∃ p, extract_place_for_time_question (pyStrip req.message) = some p ∧ p ≠ "") :
    (chat cfg orc now st0 req).apiCalls = []
    ∧ (chat cfg orc now st0 req).state.sessions
        = (cleanup_sessions_if_needed cfg.ttl now st0).sessions
    ∧ (chat cfg orc now st0 req).state.meta
        = dInsert (pyStrip req.session_id) now
            (cleanup_sessions_if_needed cfg.ttl now st0).meta
    ∧ ∃ r, (chat cfg orc now st0 req).result = ChatResult.ok r := by
  rw [chat_nonblank cfg orc now st0 req hsid]
  rcases hshort with hmsg | ⟨p, hpl, hp⟩
  · rw [chatWithSid_empty _ _ _ _ _ _ hmsg]
    exact ⟨rfl, rfl, rfl, ⟨saySomethingReply, rfl⟩⟩
  · have hmsg : pyStrip req.message ≠ "" := by
      intro he
      have hx : extract_place_for_time_question "" = none := by decide
      rw [he, hx] at hpl
      cases hpl
    rw [chatWithSid_nonempty _ _ _ _ _ _ hmsg]
    rw [chatNonEmpty_time _ _ _ _ _ _ p hpl hp]
    cases hct : current_time_for orc.clock p with
    | some t => simp [chatTime, hct, touchMeta]
    | none => simp [chatTime, hct, touchMeta]

/-- C3 witness: the amended theorem applied to a concrete empty-message
request. -/
theorem claim_C3_witness :
    (chat cfgKey orcOk 5 emptyState ⟨"s1", ""⟩).apiCalls = []
    ∧ (chat cfgKey orcOk 5 emptyState ⟨"s1", ""⟩).state.meta
        = dInsert (pyStrip "s1") 5 (cleanup_sessions_if_needed cfgKey.ttl 5 emptyState).meta := by
  have h := claim_C3 cfgKey orcOk 5 emptyState ⟨"s1", ""⟩ (by decide) (Or.inl (by decide))
  exact ⟨h.1, h.2.2.1⟩

/- ----- claim C6 ----- -/

/-- C6 counterexample: with the credential absent, the request fails with
the 500 configuration error and performs no completion call, yet the
last-seen meta entry for the fresh id is created by line 193 before the
key check, so the session state for that id is not left unmodified. -/
theorem claim_C6_counterexample :
    (chat cfgNoKey orcOk 0 emptyState ⟨"s1", "hello"⟩).result
      = ChatResult.httpError 500 "OPENAI_API_KEY missing in env vars"
    ∧ (chat cfgNoKey orcOk 0 emptyState ⟨"s1", "hello"⟩).apiCalls = []
    ∧ dGet "s1" emptyState.meta = none
    ∧ dGet "s1" (chat cfgNoKey orcOk 0 emptyState ⟨"s1", "hello"⟩).state.meta = some 0 := by
  decide

/-- C6 amended: a NORMAL-path request with the completion credential
absent fails with the 500 configuration error, performs no completion
invocation (hence no retry), and leaves the session message-log registry
untouched (beyond the opportunistic sweep); the last-seen timestamp for
the id is nevertheless refreshed by line 193 before the credential
check. -/
theorem claim_C6 (cfg : Config) (orc : Oracles) (now : Int) (st0 : ServerState)
    (req : ChatRequest)
    (hsid : pyStrip req.session_id ≠ "")
    (hmsg : pyStrip req.message ≠ "")
    (hplace : extract_place_for_time_question (pyStrip req.message) = none
      ∨ extract_place_for_time_question (pyStrip req.message) = some "")
    (hkey : cfg.apiKey = none) :
    (chat cfg orc now st0 req).result
        = ChatResult.httpError 500 "OPENAI_API_KEY missing in env vars"
    ∧ (chat cfg orc now st0 req).apiCalls = []
    ∧ (chat cfg orc now st0 req).state.sessions
        = (cleanup_sessions_if_needed cfg.ttl now st0).sessions
    ∧ (chat cfg orc now st0 req).state.meta
        = dInsert (pyStrip req.session_id) now
            (cleanup_sessions_if_needed cfg.ttl now st0).meta := by
  rw [chat_nonblank cfg orc now st0 req hsid,
    chatWithSid_nonempty _ _ _ _ _ _ hmsg,
    chatNonEmpty_normal _ _ _ _ _ _ hplace,
    chatNormal_noKey _ _ _ _ _ _ hkey]
  exact ⟨rfl, rfl, rfl, rfl⟩

/-- C6 witness: the amended theorem applied to a concrete request without
a credential. -/
theorem claim_C6_witness :
    (chat cfgNoKey orcOk 7 emptyState ⟨"s2", "hello"⟩).apiCalls = []
    ∧ (chat cfgNoKey orcOk 7 emptyState ⟨"s2", "hello"⟩).state.sessions
        = (cleanup_sessions_if_needed cfgNoKey.ttl 7 emptyState).sessions := by
  have h := claim_C6 cfgNoKey orcOk 7 emptyState ⟨"s2", "hello"⟩ (by decide) (by decide)
    (Or.inl (by decide)) rfl
  exact ⟨h.2.1, h.2.2.1⟩

/- ----- claim C4 ----- -/

/-- C4: on the NORMAL path the single message list handed to the
completion API is exactly the freshly trimmed persisted history plus,
when a web context was fetched, one trailing system message holding the
formatted context; on a successful completion the persisted history for
the id is the trimmed history plus the assistant reply only, so the web
context message is never written into the stored session. -/
theorem claim_C4 (cfg : Config) (orc : Oracles) (now : Int) (st0 : ServerState)
    (req : ChatRequest) (k : String)
    (hsid : pyStrip req.session_id ≠ "")
    (hmsg : pyStrip req.message ≠ "")
    (hplace : extract_place_for_time_question (pyStrip req.message) = none
      ∨ extract_place_for_time_question (pyStrip req.message) = some "")
    (hkey : cfg.apiKey = some k) :
    (chat cfg orc now st0 req).apiCalls
      = [trimmedFor (cleanup_sessions_if_needed cfg.ttl now st0).sessions
           (pyStrip req.session_id) (pyStrip req.message)
         ++ ctxMsgList (webContextOf orc (pyStrip req.message))]
    ∧ (∀ c, orc.completion = Except.ok c →
        dGet (pyStrip req.session_id) (chat cfg orc now st0 req).state.sessions
          = some (trimmedFor (cleanup_sessions_if_needed cfg.ttl now st0).sessions
                (pyStrip req.session_id) (pyStrip req.message)
              ++ [⟨"assistant", c.getD ""⟩])) := by
  rw [chat_nonblank cfg orc now st0 req hsid,
    chatWithSid_nonempty _ _ _ _ _ _ hmsg,
    chatNonEmpty_normal _ _ _ _ _ _ hplace,
    chatNormal_key _ _ _ _ _ _ k hkey]
  cases hc : orc.completion with
  | error e =>
    rw [chatWithKey_error _ _ _ _ _ e hc]
    constructor
    · rfl
    · intro c hcc
      cases hcc
  | ok c0 =>
    rw [chatWithKey_ok _ _ _ _ _ c0 hc]
    constructor
    · rfl
    · intro c hcc
      injection hcc with hcc2
      subst hcc2
      exact dGet_dInsert_self _ _ _

/-- C4 witness: the theorem applied to a concrete normal-path request
with a successful completion. -/
theorem claim_C4_witness :
    (chat cfgKey orcOk 0 emptyState ⟨"s1", "hello"⟩).apiCalls
      = [trimmedFor (cleanup_sessions_if_needed cfgKey.ttl 0 emptyState).sessions
           (pyStrip "s1") (pyStrip "hello")
         ++ ctxMsgList (webContextOf orcOk (pyStrip "hello"))]
    ∧ dGet (pyStrip "s1") (chat cfgKey orcOk 0 emptyState ⟨"s1", "hello"⟩).state.sessions
      = some (trimmedFor (cleanup_sessions_if_needed cfgKey.ttl 0 emptyState).sessions
            (pyStrip "s1") (pyStrip "hello")
          ++ [⟨"assistant", (some "hi there" : Option String).getD ""⟩]) := by
  have h := claim_C4 cfgKey orcOk 0 emptyState ⟨"s1", "hello"⟩ "k" (by decide) (by decide)
    (Or.inl (by decide)) rfl
  exact ⟨h.1, h.2 (some "hi there") rfl⟩

/- ----- claim C5 ----- -/

/-- C5: when the completion invocation of a NORMAL-path request fails,
the request is reported as a 500 server error whose detail carries the
underlying cause, exactly one completion invocation was attempted (no
retry), the persisted session is exactly the trimmed history whose last
entry is the just-appended user message (no rollback), and no assistant
message is appended. -/
theorem claim_C5 (cfg : Config) (orc : Oracles) (now : Int) (st0 : ServerState)
    (req : ChatRequest) (k e : String)
    (hsid : pyStrip req.session_id ≠ "")
    (hmsg : pyStrip req.message ≠ "")
    (hplace : extract_place_for_time_question (pyStrip req.message) = none
      ∨ extract_place_for_time_question (pyStrip req.message) = some "")
    (hkey : cfg.apiKey = some k)
    (herr : orc.completion = Except.error e) :
    (chat cfg orc now st0 req).result
        = ChatResult.httpError 500 ("OpenAI request failed: " ++ e)
    ∧ (chat cfg orc now st0 req).apiCalls.length = 1
    ∧ dGet (pyStrip req.session_id) (chat cfg orc now st0 req).state.sessions
        = some (trimmedFor (cleanup_sessions_if_needed cfg.ttl now st0).sessions
            (pyStrip req.session_id) (pyStrip req.message))
    ∧ (trimmedFor (cleanup_sessions_if_needed cfg.ttl now st0).sessions
        (pyStrip req.session_id) (pyStrip req.message)).getLast?
        = some ⟨"user", pyStrip req.message⟩ := by
  rw [chat_nonblank cfg orc now st0 req hsid,
    chatWithSid_nonempty _ _ _ _ _ _ hmsg,
    chatNonEmpty_normal _ _ _ _ _ _ hplace,
    chatNormal_key _ _ _ _ _ _ k hkey,
    chatWithKey_error _ _ _ _ _ e herr]
  refine ⟨rfl, rfl, ?_, ?_⟩
  · exact dGet_dInsert_self _ _ _
  · rw [trimmedFor]
    exact trimHistory_append_getLast _ _

/-- C5 witness: the theorem applied to a concrete request whose
completion call fails. -/
theorem claim_C5_witness :
    (chat cfgKey orcFail 0 emptyState ⟨"s1", "hello"⟩).result
      = ChatResult.httpError 500 ("OpenAI request failed: " ++ "boom")
    ∧ (chat cfgKey orcFail 0 emptyState ⟨"s1", "hello"⟩).apiCalls.length = 1
    ∧ (trimmedFor (cleanup_sessions_if_needed cfgKey.ttl 0 emptyState).sessions
        (pyStrip "s1") (pyStrip "hello")).getLast? = some ⟨"user", pyStrip "hello"⟩ := by
  have h := claim_C5 cfgKey orcFail 0 emptyState ⟨"s1", "hello"⟩ "k" "boom" (by decide)
    (by decide) (Or.inl (by decide)) rfl rfl
  exact ⟨h.1, h.2.1, h.2.2.2⟩

/- ----- claim C9 ----- -/

/-- Fixture registry for the eviction claim: session a long expired,
session b fresh, throttle interval already elapsed. -/
def stC9 : ServerState :=
  ⟨[("a", [sysMsg]), ("b", [sysMsg])], [("a", -100000), ("b", 0)], -60⟩

/-- C9: when the throttled sweep actually runs (interval elapsed) on a
registry with distinct meta keys, it removes exactly the ids whose meta
timestamp satisfies now - last_seen > ttl, from both the session map and
the last-seen map, leaving every other entry untouched; ids without a
meta entry are never evicted; and the sweep is idempotent: a second call
at the same instant is a no-op. -/
theorem claim_C9 (ttl now : Int) (st : ServerState)
    (hrun : ¬ now - st.lastCleanup < CLEANUP_INTERVAL_SECONDS)
    (hnd : (st.meta.map Prod.fst).Nodup) :
    (∀ (sid : String) (ls : Int), dGet sid st.meta = some ls →
       ((ttl < now - ls →
          dGet sid (cleanup_sessions_if_needed ttl now st).meta = none
          ∧ dGet sid (cleanup_sessions_if_needed ttl now st).sessions = none)
        ∧ (¬ ttl < now - ls →
          dGet sid (cleanup_sessions_if_needed ttl now st).meta = some ls
          ∧ dGet sid (cleanup_sessions_if_needed ttl now st).sessions
              = dGet sid st.sessions)))
    ∧ (∀ sid : String, dGet sid st.meta = none →
        dGet sid (cleanup_sessions_if_needed ttl now st).meta = none
        ∧ dGet sid (cleanup_sessions_if_needed ttl now st).sessions
            = dGet sid st.sessions)
    ∧ (∀ (ttl2 now2 : Int) (st2 : ServerState),
        cleanup_sessions_if_needed ttl2 now2 (cleanup_sessions_if_needed ttl2 now2 st2)
          = cleanup_sessions_if_needed ttl2 now2 st2) := by
  have hm : (cleanup_sessions_if_needed ttl now st).meta
      = st.meta.filter (fun p => !(keyIn p.1 (deadKeys ttl now st.meta))) := by
    rw [cleanup_run ttl now st hrun]
  have hs : (cleanup_sessions_if_needed ttl now st).sessions
      = st.sessions.filter (fun p => !(keyIn p.1 (deadKeys ttl now st.meta))) := by
    rw [cleanup_run ttl now st hrun]
  refine ⟨?_, ?_, ?_⟩
  · intro sid ls hget
    have hdead : keyIn sid (deadKeys ttl now st.meta) = decide (ttl < now - ls) := by
      rw [deadKeys]
      simpa using keyIn_dead (fun p => decide (ttl < now - p.2)) sid ls hnd hget
    constructor
    · intro hlt
      have hk : keyIn sid (deadKeys ttl now st.meta) = true := by
        rw [hdead]; simpa using hlt
      constructor
      · rw [hm, dGet_filter_keyPred (fun s => !(keyIn s (deadKeys ttl now st.meta))) sid st.meta, hk]
        simp
      · rw [hs, dGet_filter_keyPred (fun s => !(keyIn s (deadKeys ttl now st.meta))) sid st.sessions, hk]
        simp
    · intro hlt
      have hk : keyIn sid (deadKeys ttl now st.meta) = false := by
        rw [hdead]; simpa using hlt
      constructor
      · rw [hm, dGet_filter_keyPred (fun s => !(keyIn s (deadKeys ttl now st.meta))) sid st.meta, hk]
        simpa using hget
      · rw [hs, dGet_filter_keyPred (fun s => !(keyIn s (deadKeys ttl now st.meta))) sid st.sessions, hk]
        simp
  · intro sid hget
    have hk : keyIn sid (deadKeys ttl now st.meta) = false := by
      rw [deadKeys]
      exact keyIn_filter_false _ sid (not_mem_keys_of_dGet_none hget)
    constructor
    · rw [hm, dGet_filter_keyPred (fun s => !(keyIn s (deadKeys ttl now st.meta))) sid st.meta, hk]
      simpa using hget
    · rw [hs, dGet_filter_keyPred (fun s => !(keyIn s (deadKeys ttl now st.meta))) sid st.sessions, hk]
      simp
  · intro ttl2 now2 st2
    by_cases h2 : now2 - st2.lastCleanup < CLEANUP_INTERVAL_SECONDS
    · rw [cleanup_skip ttl2 now2 st2 h2, cleanup_skip ttl2 now2 st2 h2]
    · rw [cleanup_run ttl2 now2 st2 h2]
      apply cleanup_skip
      show now2 - now2 < CLEANUP_INTERVAL_SECONDS
      rw [CLEANUP_INTERVAL_SECONDS]
      omega

/-- C9 witness: the theorem applied to the concrete fixture: the expired
session is removed from both maps, the fresh one is kept. -/
theorem claim_C9_witness :
    dGet "a" (cleanup_sessions_if_needed 21600 0 stC9).meta = none
    ∧ dGet "a" (cleanup_sessions_if_needed 21600 0 stC9).sessions = none
    ∧ dGet "b" (cleanup_sessions_if_needed 21600 0 stC9).meta = some 0
    ∧ cleanup_sessions_if_needed 21600 0 (cleanup_sessions_if_needed 21600 0 stC9)
        = cleanup_sessions_if_needed 21600 0 stC9 := by
  have h := claim_C9 21600 0 stC9 (by decide) (by decide)
  have ha := (h.1 "a" (-100000) (by decide)).1 (by decide)
  have hb := (h.1 "b" 0 (by decide)).2 (by decide)
  exact ⟨ha.1, ha.2, hb.1, h.2.2 21600 0 stC9⟩

/- ----- claim C8 ----- -/

/-- C8: the place extractor matches the three trigger phrases in source
order with the first match winning (each later phrase is consulted only
when every earlier one is absent from the lowercased stripped text), it
returns none when no phrase occurs, and it maps the documented examples
to tokyo, new york and berlin; the post-processing of the matched suffix
(punctuation strip, first-comma cut, alias table before word splitting,
then 3-, 2-, 1-word candidates against the city table with the raw
remainder as fallback) is the processAfterPat function applied to the
suffix after the first occurrence of the winning phrase. -/
theorem claim_C8 :
    extract_place_for_time_question "current time in Tokyo" = some "tokyo"
    ∧ extract_place_for_time_question "time in new york" = some "new york"
    ∧ extract_place_for_time_question "what time is it in Berlin, Germany" = some "berlin"
    ∧ (∀ (s : String) (rest : List Char),
        afterFirstL pat1 (canonText s) = some rest →
        extract_place_for_time_question s = some (processAfterPat rest))
    ∧ (∀ (s : String) (rest : List Char),
        afterFirstL pat1 (canonText s) = none →
        afterFirstL pat2 (canonText s) = some rest →
        extract_place_for_time_question s = some (processAfterPat rest))
    ∧ (∀ (s : String) (rest : List Char),
        afterFirstL pat1 (canonText s) = none →
        afterFirstL pat2 (canonText s) = none →
        afterFirstL pat3 (canonText s) = some rest →
        extract_place_for_time_question s = some (processAfterPat rest))
    ∧ (∀ s : String,
        afterFirstL pat1 (canonText s) = none →
        afterFirstL pat2 (canonText s) = none →
        afterFirstL pat3 (canonText s) = none →
        extract_place_for_time_question s = none) := by
  refine ⟨by decide, by decide, by decide, ?_, ?_, ?_, ?_⟩
  · intro s rest h
    simp [extract_place_for_time_question, h]
  · intro s rest h1 h2
    simp [extract_place_for_time_question, h1, h2]
  · intro s rest h1 h2 h3
    simp [extract_place_for_time_question, h1, h2, h3]
  · intro s h1 h2 h3
    simp [extract_place_for_time_question, h1, h2, h3]

/-- C8 witness: the no-trigger conjunct applied to a concrete input. -/
theorem claim_C8_witness :
    afterFirstL pat1 (canonText "hello") = none
    ∧ afterFirstL pat2 (canonText "hello") = none
    ∧ afterFirstL pat3 (canonText "hello") = none
    ∧ extract_place_for_time_question "hello" = none := by
  refine ⟨by decide, by decide, by decide, ?_⟩
  exact claim_C8.2.2.2.2.2.2 "hello" (by decide) (by decide) (by decide)

/- ----- claim C10 ----- -/

/-- C10: a message consisting of a bare trigger phrase yields the empty
string (not none) from the extractor; since Python truthiness treats the
empty string like none, the orchestrator does not produce the
unknown-city help reply but continues down the NORMAL path: with the
credential absent the request fails with the 500 configuration error and
no completion call, with the credential present exactly one completion
invocation is made. -/
theorem claim_C10 :
    extract_place_for_time_question "time in" = some ""
    ∧ extract_place_for_time_question "what time is it in?" = some ""
    ∧ extract_place_for_time_question "current time in" = some ""
    ∧ (∀ (cfg : Config) (orc : Oracles) (now : Int) (st0 : ServerState)
        (req : ChatRequest),
        pyStrip req.session_id ≠ "" →
        pyStrip req.message ≠ "" →
        extract_place_for_time_question (pyStrip req.message) = some "" →
        ((cfg.apiKey = none →
            (chat cfg orc now st0 req).result
              = ChatResult.httpError 500 "OPENAI_API_KEY missing in env vars"
            ∧ (chat cfg orc now st0 req).apiCalls = [])
         ∧ (∀ k, cfg.apiKey = some k →
            (chat cfg orc now st0 req).apiCalls.length = 1))) := by
  refine ⟨by decide, by decide, by decide, ?_⟩
  intro cfg orc now st0 req hsid hmsg hpl
  constructor
  · intro hkey
    rw [chat_nonblank cfg orc now st0 req hsid,
      chatWithSid_nonempty _ _ _ _ _ _ hmsg,
      chatNonEmpty_normal _ _ _ _ _ _ (Or.inr hpl),
      chatNormal_noKey _ _ _ _ _ _ hkey]
    exact ⟨rfl, rfl⟩
  · intro k hkey
    rw [chat_nonblank cfg orc now st0 req hsid,
      chatWithSid_nonempty _ _ _ _ _ _ hmsg,
      chatNonEmpty_normal _ _ _ _ _ _ (Or.inr hpl),
      chatNormal_key _ _ _ _ _ _ k hkey]
    cases hc : orc.completion with
    | error e => rw [chatWithKey_error _ _ _ _ _ e hc]; rfl
    | ok c => rw [chatWithKey_ok _ _ _ _ _ c hc]; rfl

/-- C10 witness: the NORMAL-path conjunct applied to the bare phrase
"time in", once with and once without a credential. -/
theorem claim_C10_witness :
    pyStrip "time in" ≠ ""
    ∧ extract_place_for_time_question (pyStrip "time in") = some ""
    ∧ (chat cfgNoKey orcOk 0 emptyState ⟨"s1", "time in"⟩).result
        = ChatResult.httpError 500 "OPENAI_API_KEY missing in env vars"
    ∧ (chat cfgKey orcOk 0 emptyState ⟨"s1", "time in"⟩).apiCalls.length = 1 := by
  refine ⟨by decide, by decide, ?_, ?_⟩
  · exact ((claim_C10.2.2.2 cfgNoKey orcOk 0 emptyState ⟨"s1", "time in"⟩ (by decide)
      (by decide) (by decide)).1 rfl).1
  · exact (claim_C10.2.2.2 cfgKey orcOk 0 emptyState ⟨"s1", "time in"⟩ (by decide)
      (by decide) (by decide)).2 "k" rfl
